import Mathlib

/-!
Verification development for the federated issue-search executors in
src/sentry/search/snuba/executors.py (classes PostgresSnubaQueryExecutor and
SnubaOnlyQueryExecutor).

The Python code is shallowly embedded below.  Timestamps (datetime values in
the source) are modelled as integers; external collaborators (the Snuba
analytical store, the Django queryset, the SequencePaginator, the in_bulk
hydration) are modelled as oracles supplied in a Backend structure, and every
analytical-store call made by the executor is recorded in a trace so that
theorems can speak about which calls were issued and with which parameters.
The runtime configuration knobs read from options.get(...) are the fields of
SearchConfig; the wall-clock budget of the while loop (checked between
iterations only) is modelled by the fuel field, the number of loop iterations
the budget still permits.  The chunk growth rate, a float in the source, is
modelled as the exact rational growth_num / growth_den; Python's int() on the
nonnegative product is the floor, i.e. (c * growth_num) / growth_den in
natural-number division.
-/

/-- A search predicate (SearchFilter in the source): key.name, operator,
raw_value and key.is_tag.  Date-valued raw_values are modelled as integer
timestamps.  Note: datetime values are never falsy in Python, so the source's
truthiness tests on filter values are modelled as presence tests. -/
structure SFilter where
  name : String
  op : String
  value : Int
  isTag : Bool
  deriving DecidableEq

/-- Pagination cursor: {value, is_prev} (the offset component is unused by the
modelled code paths). -/
structure Cursor where
  value : Int
  is_prev : Bool
  deriving DecidableEq

/-- The result page produced by a paginator: the list of identifiers plus the
has_results flags of the next and prev cursors. -/
structure Page where
  results : List Nat
  next_has : Bool
  prev_has : Bool
  deriving DecidableEq

/-- One analytical-store (Snuba) call, as recorded in the trace:
issue_restriction is some (sorted ids) when the call carried a
filter_keys["issue"] = sorted(group_ids) restriction (snuba_search adds it
only when group_ids is nonempty), limit is the limit argument, offset the
offset, and get_sample whether the call was a sampling call. -/
structure SnubaCall where
  issue_restriction : Option (List Nat)
  limit : Option Nat
  offset : Nat
  get_sample : Bool
  deriving DecidableEq

/-- Outcome of a query run: the canonical EMPTY_RESULT, the pure-relational
fast path (the DateTimePaginator result over the queryset ordered by
descending last_seen), a federated result page, or a raised Python error
(KeyError on an unknown sort, or NameError from an unbound local). -/
inductive QResult where
  | empty : QResult
  | fastPath : QResult
  | page : Page → QResult
  | err : QResult
  deriving DecidableEq

/-- Python str.startswith, over the character data (kernel-computable). -/
def strStartsWith (s p : String) : Bool :=
  p.data.isPrefixOf s.data

/-- get_search_filter from the source: finds the value of a search filter with
the given name whose operator starts with the given comparison, folding
multiple matches with max (for chains starting in the greater-than direction)
or min.  found_val's truthiness test is a presence test (values are
datetimes). -/
def get_search_filter (search_filters : List SFilter) (name : String)
    (operator : String) : Option Int :=
  search_filters.foldl
    (fun found_val sf =>
      if sf.name = name ∧ strStartsWith sf.op operator then
        match found_val with
        | some v =>
            some (if strStartsWith operator ">" then max sf.value v else min sf.value v)
        | none => some sf.value
      else found_val)
    none

/-- Modelled from the spec: ALLOWED_FUTURE_DELTA is imported from
sentry.constants, which is outside this repository's sources; the spec calls
it the "now + allowed clock skew" ceiling.  Its concrete value (here: ten
minutes, in seconds) is irrelevant to every claim below. -/
def ALLOWED_FUTURE_DELTA : Int := 600

/-- timedelta(days=90) in seconds, used for the retention fallback. -/
def days90 : Int := 7776000

/-- retention_date = max(filter(None, [retention_window_start, now - 90 days])):
the fallback now - 90 days is always present. -/
def retention_date (retention_window_start : Option Int) (now : Int) : Int :=
  match retention_window_start with
  | some r => max r (now - days90)
  | none => now - days90

/-- end = min(end_params) where end_params = filter(None, [date_to,
get_search_filter(search_filters, "date", "<")]); none when both are absent. -/
def resolvedEnd0 (date_to dlt : Option Int) : Option Int :=
  match date_to, dlt with
  | some a, some b => some (min a b)
  | some a, none => some a
  | none, some b => some b
  | none, none => none

/-- start = max(filter(None, [date_from, retention_date, date_gt])):
retention_date is always present, so this is the max of it with whichever of
the other two are present. -/
def resolvedStart (date_from : Option Int) (retention : Int)
    (dgt : Option Int) : Int :=
  max (max (date_from.getD retention) retention) (dgt.getD retention)

/-- The caller-supplied inputs of one query (the arguments of the query
methods).  environments is whether a nonempty environment list was supplied;
search filters carry the date bounds consumed by get_search_filter. -/
structure QueryInput where
  retention_window_start : Option Int
  date_from : Option Int
  date_to : Option Int
  environments : Bool
  sort_by : String
  limit : Nat
  cursor : Option Cursor
  count_hits : Bool
  search_filters : List SFilter
  now : Int

/-- The resolved (retention_date, start, end) triple computed by the window
code of both query methods (lines 342-384 and 746-760): end defaults to
now + ALLOWED_FUTURE_DELTA when no upper bound is supplied, and is clamped
from below by retention_date. -/
def resolvedWindow (inp : QueryInput) : Int × Int × Int :=
  let dlt := get_search_filter inp.search_filters "date" "<"
  let dgt := get_search_filter inp.search_filters "date" ">"
  let end0 := (resolvedEnd0 inp.date_to dlt).getD (inp.now + ALLOWED_FUTURE_DELTA)
  let retention := retention_date inp.retention_window_start inp.now
  let start := resolvedStart inp.date_from retention dgt
  (retention, start, max retention end0)

/-- The runtime configuration knobs read via options.get, plus the loop fuel
modelling the wall-clock budget (max-total-chunk-time-seconds). -/
structure SearchConfig where
  max_candidates : Nat
  growth_num : Nat
  growth_den : Nat
  max_chunk_size : Nat
  sample_size : Nat
  fuel : Nat

/-- The external collaborators of one query run: the analytical store (snuba,
indexed by the number of calls made so far and returning (rows, total)), the
relational queryset's id list in database order (qs_ids), the
SequencePaginator (paginate, a function of the accumulated result_groups and
the known_hits value; limit, cursor and paginator_options are fixed for the
query and captured by the oracle), and the hydration membership test
(present, from Group.objects.in_bulk). -/
structure Backend where
  snuba : Nat → List (Nat × Int) × Nat
  qs_ids : List Nat
  paginate : List (Nat × Int) → Option Nat → Page
  present : Nat → Bool

/-- issue_only_fields of PostgresSnubaQueryExecutor. -/
def pg_issue_only_fields : List String :=
  ["query", "status", "bookmarked_by", "assigned_to", "unassigned",
   "subscribed_by", "active_at", "first_release", "first_seen"]

/-- sort_strategies of PostgresSnubaQueryExecutor; none models the KeyError
raised on an unknown sort. -/
def pg_sort_strategies (sort_by : String) : Option String :=
  if sort_by = "date" then some "last_seen"
  else if sort_by = "freq" then some "times_seen"
  else if sort_by = "new" then some "first_seen"
  else if sort_by = "priority" then some "priority"
  else none

/-- sort_strategies of SnubaOnlyQueryExecutor. -/
def so_sort_strategies (sort_by : String) : Option String :=
  if sort_by = "date" then some "events.last_seen"
  else if sort_by = "freq" then some "times_seen"
  else if sort_by = "new" then some "events.first_seen"
  else if sort_by = "priority" then some "priority"
  else none

/-- The condition of the Postgres-only fast path (lines 355-366): no cursor,
sort by date, no environments, and every search filter's field is an
issue-only field or the date field. -/
def pgFastPathCond (inp : QueryInput) : Prop :=
  inp.cursor = none ∧ inp.sort_by = "date" ∧ inp.environments = false ∧
    inp.search_filters.filter
      (fun sf => !(pg_issue_only_fields.contains sf.name || sf.name == "date")) = []

instance (inp : QueryInput) : Decidable (pgFastPathCond inp) := by
  unfold pgFastPathCond; infer_instance

/-- Lines 450-452: chunk_limit = min(int(chunk_limit * chunk_growth),
max_chunk_size) followed by chunk_limit = max(chunk_limit, len(group_ids)).
The SnubaOnly variant (line 786) is the same step with num_group_ids = 0. -/
def nextChunkLimit (growth_num growth_den max_chunk_size num_group_ids
    chunk_limit : Nat) : Nat :=
  max (min ((chunk_limit * growth_num) / growth_den) max_chunk_size) num_group_ids

/-- The chunk limit used by the n-th loop iteration (n counted from 0); the
initial chunk_limit before the loop is the query limit. -/
def chunkLimits (growth_num growth_den max_chunk_size num_group_ids
    limit : Nat) : Nat → Nat
  | 0 => nextChunkLimit growth_num growth_den max_chunk_size num_group_ids limit
  | n + 1 => nextChunkLimit growth_num growth_den max_chunk_size num_group_ids
      (chunkLimits growth_num growth_den max_chunk_size num_group_ids limit n)

/-- The result accumulator of the chunked loop: result_groups (the ordered
(id, score) list) and result_group_ids (the seen-identifier set, modelled as
the list of inserted ids). -/
structure AccState where
  result_groups : List (Nat × Int)
  result_group_ids : List Nat
  deriving DecidableEq

/-- Lines 492-502 / 808-813, body of the per-identifier insertion: a
duplicate identifier is discarded, a new one is appended with its score and
added to the seen set. -/
def insertGroup (acc : AccState) (p : Nat × Int) : AccState :=
  if p.1 ∈ acc.result_group_ids then acc
  else { result_groups := acc.result_groups ++ [p],
         result_group_ids := p.1 :: acc.result_group_ids }

/-- Folding one analytical chunk (its (id, score) pairs, post-filtered where
applicable) into the accumulator. -/
def processChunk (acc : AccState) (chunk : List (Nat × Int)) : AccState :=
  chunk.foldl insertGroup acc

/-- Folding a whole sequence of chunks from the empty accumulator. -/
def runChunks (chunks : List (List (Nat × Int))) : AccState :=
  chunks.foldl processChunk { result_groups := [], result_group_ids := [] }

/-- Lines 629-640: the sampling estimate.  hit_ratio = filtered_count /
float(snuba_count); hits = int(hit_ratio * snuba_total), i.e. the floor of the
exact rational product; snuba_count == 0 returns 0. -/
def calculate_hits_sampling (filtered_count snuba_count snuba_total : Nat) : Nat :=
  if snuba_count = 0 then 0
  else ⌊(filtered_count : ℚ) / (snuba_count : ℚ) * (snuba_total : ℚ)⌋₊

/-- The hit formula as the spec words it: round((filteredCount / sampleCount)
* totalRowsFromSampleQuery), with Python 2 round (half away from zero; the
quantities are nonnegative, so floor(x + 1/2)). -/
def spec_hits_rounded (filtered_count snuba_count snuba_total : Nat) : Nat :=
  if snuba_count = 0 then 0
  else ⌊(filtered_count : ℚ) / (snuba_count : ℚ) * (snuba_total : ℚ) + 1 / 2⌋₊

/-- PostgresSnubaQueryExecutor.calculate_hits (lines 563-644).  sampleResp is
the analytical store's response to the sampling call, when one is made.  The
first component is none exactly when control falls through every branch to
the trailing return of the unbound local hits (a NameError); the second
component records whether the sampling analytical call was made. -/
def pgCalculateHits (qs_ids : List Nat) (sampleResp : List (Nat × Int) × Nat)
    (group_ids : List Nat) (snuba_groups : List (Nat × Int)) (too_many : Bool)
    (cursor : Option Cursor) (count_hits : Bool) :
    Option (Option Nat) × Bool :=
  if count_hits = false then (some none, false)
  else if too_many = true ∨ cursor.isSome then
    let snuba_count := sampleResp.1.length
    if snuba_count = 0 then (some (some 0), true)
    else
      let filtered_count :=
        (qs_ids.filter (fun i => (sampleResp.1.map Prod.fst).contains i)).length
      (some (some (calculate_hits_sampling filtered_count snuba_count sampleResp.2)),
       true)
  else if group_ids ≠ [] then (some (some snuba_groups.length), false)
  else (none, false)

set_option linter.unusedVariables false in
/-- SnubaOnlyQueryExecutor.calculate_hits (lines 853-882): ignores count_hits
(and every other argument), always issues one counting analytical call and
returns its total; the pair is (returned hits, number of calls made). -/
def soCalculateHits (countResp : List (Nat × Int) × Nat) (count_hits : Bool) :
    Option Nat × Nat :=
  (some countResp.2, 1)

/-- The mutable locals of the chunked while loop, threaded between
iterations.  pres = none models paginator_results still being the initial
EMPTY_RESULT; more_results = none models the local not yet being bound. -/
structure LoopState where
  chunk_limit : Nat
  offset : Nat
  hits : Option Nat
  acc : AccState
  pres : Option Page
  more_results : Option Bool
  calls : List SnubaCall
  hitsErr : Bool

/-- sorted(group_ids) as passed to filter_keys["issue"]. -/
def sortedNat (l : List Nat) : List Nat :=
  l.insertionSort (· ≤ ·)

/-- One iteration of the Postgres executor's loop body (lines 445-535),
returning the new state and whether the loop breaks.  The post-filter
group_queryset.filter(id__in=...) is modelled by membership in qs_ids. -/
def pgLoopBody (inp : QueryInput) (cfg : SearchConfig) (B : Backend)
    (too_many : Bool) (group_ids : List Nat) (st : LoopState) :
    LoopState × Bool :=
  let cl := nextChunkLimit cfg.growth_num cfg.growth_den cfg.max_chunk_size
    group_ids.length st.chunk_limit
  let resp := B.snuba st.calls.length
  let rows := resp.1
  let total := resp.2
  let call : SnubaCall :=
    { issue_restriction := if group_ids = [] then none else some (sortedNat group_ids),
      limit := some cl, offset := st.offset, get_sample := false }
  let calls1 := st.calls ++ [call]
  let count := rows.length
  let mr := decide (count ≥ inp.limit ∧ st.offset + inp.limit < total)
  let offset1 := st.offset + count
  if rows = [] then
    ({ st with
        chunk_limit := cl, offset := offset1, more_results := some mr,
        calls := calls1 }, true)
  else
    let acc1 :=
      if group_ids ≠ [] then
        { result_groups := rows, result_group_ids := st.acc.result_group_ids }
      else
        processChunk st.acc (rows.filter (fun p => B.qs_ids.contains p.1))
    match st.hits with
    | some h =>
        let page := B.paginate acc1.result_groups (some h)
        ({ st with
            chunk_limit := cl, offset := offset1, hits := some h,
            acc := acc1, pres := some page, more_results := some mr,
            calls := calls1 },
         group_ids ≠ [] ∨ page.results.length ≥ inp.limit ∨ mr = false)
    | none =>
        let sampleResp := B.snuba calls1.length
        let ch := pgCalculateHits B.qs_ids sampleResp group_ids rows too_many
          inp.cursor inp.count_hits
        match ch.1 with
        | none =>
            ({ st with
                chunk_limit := cl, offset := offset1, acc := acc1,
                more_results := some mr, calls := calls1, hitsErr := true }, true)
        | some h =>
            let calls2 :=
              if ch.2 then
                calls1 ++ [{ issue_restriction := none, limit := some cfg.sample_size,
                             offset := 0, get_sample := true }]
              else calls1
            let page := B.paginate acc1.result_groups h
            ({ st with
                chunk_limit := cl, offset := offset1, hits := h,
                acc := acc1, pres := some page, more_results := some mr,
                calls := calls2 },
             group_ids ≠ [] ∨ page.results.length ≥ inp.limit ∨ mr = false)

/-- The while loop, bounded by fuel (the wall-clock budget is checked between
iterations only). -/
def pgLoopIter (inp : QueryInput) (cfg : SearchConfig) (B : Backend)
    (too_many : Bool) (group_ids : List Nat) : Nat → LoopState → LoopState
  | 0, st => st
  | fuel + 1, st =>
      let r := pgLoopBody inp cfg B too_many group_ids st
      if r.2 then r.1 else pgLoopIter inp cfg B too_many group_ids fuel r.1

/-- Lines 550-554: force the prev cursor's has_results when a cursor was
supplied and it is not an is_prev cursor with an empty page. -/
def prevFix (p : Page) (cursor : Option Cursor) : Page :=
  match cursor with
  | some c => if c.is_prev = false ∨ 0 < p.results.length
      then { p with prev_has := true } else p
  | none => p

/-- Lines 543-554: the finalize step after the loop.  more_results = none
models the local being unbound (no loop iteration ran); Python's `and`
evaluates it only when the page length equals the limit, and reading it
unbound raises (modelled by none). -/
def finalizePage (p : Page) (limit : Nat) (more_results : Option Bool)
    (cursor : Option Cursor) : Option Page :=
  if p.results.length = limit then
    match more_results with
    | none => none
    | some mr =>
        let p1 := if mr then { p with next_has := true } else p
        some (prevFix p1 cursor)
  else some (prevFix p cursor)

/-- The instrumented outcome of one query run. -/
structure QueryRun where
  res : QResult
  calls : List SnubaCall
  too_many : Bool
  group_ids : List Nat
  hitsFellThrough : Bool

/-- The initial loop state before the chunked while loop. -/
def initLoopState (limit : Nat) : LoopState :=
  { chunk_limit := limit, offset := 0, hits := none,
    acc := { result_groups := [], result_group_ids := [] },
    pres := none, more_results := none, calls := [], hitsErr := false }

/-- The chunked loop of the Postgres executor followed by the finalize step
and hydration (lines 427-561), for a given candidate outcome. -/
def pgRunLoop (inp : QueryInput) (cfg : SearchConfig) (B : Backend)
    (too_many : Bool) (group_ids : List Nat) : QueryRun :=
  let st := pgLoopIter inp cfg B too_many group_ids cfg.fuel (initLoopState inp.limit)
  if st.hitsErr then
    { res := .err, calls := st.calls, too_many := too_many,
      group_ids := group_ids, hitsFellThrough := true }
  else
    let p := st.pres.getD { results := [], next_has := false, prev_has := false }
    match finalizePage p inp.limit st.more_results inp.cursor with
    | none =>
        { res := .err, calls := st.calls, too_many := too_many,
          group_ids := group_ids, hitsFellThrough := false }
    | some p2 =>
        let p3 := { p2 with results := p2.results.filter (fun i => B.present i) }
        { res := match st.pres with
                 | none => .empty
                 | some _ => .page p3,
          calls := st.calls, too_many := too_many, group_ids := group_ids,
          hitsFellThrough := false }

/-- Everything of PostgresSnubaQueryExecutor.query from the candidate
pre-filter on (lines 402-561): candidate slice and cap, then the chunked
loop. -/
def pgAfterWindow (inp : QueryInput) (cfg : SearchConfig) (B : Backend) :
    QueryRun :=
  let group_ids0 := B.qs_ids.take (cfg.max_candidates + 1)
  if group_ids0 = [] then
    { res := .empty, calls := [], too_many := false, group_ids := [],
      hitsFellThrough := false }
  else
    let too_many := decide (group_ids0.length > cfg.max_candidates)
    let group_ids := if group_ids0.length > cfg.max_candidates then [] else group_ids0
    match pg_sort_strategies inp.sort_by with
    | none =>
        { res := .err, calls := [], too_many := too_many, group_ids := group_ids,
          hitsFellThrough := false }
    | some _sort_field => pgRunLoop inp cfg B too_many group_ids

/-- PostgresSnubaQueryExecutor.query (lines 324-561): window resolution, the
fast path, the two retention short-circuits, then pgAfterWindow. -/
def pgQuery (inp : QueryInput) (cfg : SearchConfig) (B : Backend) : QueryRun :=
  let dlt := get_search_filter inp.search_filters "date" "<"
  if resolvedEnd0 inp.date_to dlt = none ∧ pgFastPathCond inp then
    { res := .fastPath, calls := [], too_many := false, group_ids := [],
      hitsFellThrough := false }
  else
    let w := resolvedWindow inp
    let retention := w.1
    let start := w.2.1
    let wend := w.2.2
    if start = retention ∧ wend = retention then
      { res := .empty, calls := [], too_many := false, group_ids := [],
        hitsFellThrough := false }
    else if start ≥ wend then
      { res := .empty, calls := [], too_many := false, group_ids := [],
        hitsFellThrough := false }
    else pgAfterWindow inp cfg B

/-- One iteration of the SnubaOnly executor's loop body (lines 783-838): no
candidate forwarding, dedup accumulation over the chunk, hit counting via one
unrestricted, unlimited analytical call. -/
def soLoopBody (inp : QueryInput) (cfg : SearchConfig) (B : Backend)
    (st : LoopState) : LoopState × Bool :=
  let cl := nextChunkLimit cfg.growth_num cfg.growth_den cfg.max_chunk_size 0
    st.chunk_limit
  let resp := B.snuba st.calls.length
  let rows := resp.1
  let total := resp.2
  let call : SnubaCall :=
    { issue_restriction := none, limit := some cl, offset := st.offset,
      get_sample := false }
  let calls1 := st.calls ++ [call]
  let count := rows.length
  let mr := decide (count ≥ inp.limit ∧ st.offset + inp.limit < total)
  let offset1 := st.offset + count
  if rows = [] then
    ({ st with
        chunk_limit := cl, offset := offset1, more_results := some mr,
        calls := calls1 }, true)
  else
    let acc1 := processChunk st.acc rows
    match st.hits with
    | some h =>
        let page := B.paginate acc1.result_groups (some h)
        ({ st with
            chunk_limit := cl, offset := offset1, hits := some h,
            acc := acc1, pres := some page, more_results := some mr,
            calls := calls1 },
         page.results.length ≥ inp.limit ∨ mr = false)
    | none =>
        let ch := soCalculateHits (B.snuba calls1.length) inp.count_hits
        let calls2 := calls1 ++
          [{ issue_restriction := none, limit := none, offset := 0,
             get_sample := false }]
        let page := B.paginate acc1.result_groups ch.1
        ({ st with
            chunk_limit := cl, offset := offset1, hits := ch.1,
            acc := acc1, pres := some page, more_results := some mr,
            calls := calls2 },
         page.results.length ≥ inp.limit ∨ mr = false)

/-- The SnubaOnly while loop, bounded by fuel. -/
def soLoopIter (inp : QueryInput) (cfg : SearchConfig) (B : Backend) :
    Nat → LoopState → LoopState
  | 0, st => st
  | fuel + 1, st =>
      let r := soLoopBody inp cfg B st
      if r.2 then r.1 else soLoopIter inp cfg B fuel r.1

/-- The chunked loop of the SnubaOnly executor followed by the finalize step
and hydration (lines 768-851). -/
def soRunLoop (inp : QueryInput) (cfg : SearchConfig) (B : Backend) : QueryRun :=
  let st := soLoopIter inp cfg B cfg.fuel (initLoopState inp.limit)
  let p := st.pres.getD { results := [], next_has := false, prev_has := false }
  match finalizePage p inp.limit st.more_results inp.cursor with
  | none =>
      { res := .err, calls := st.calls, too_many := false, group_ids := [],
        hitsFellThrough := false }
  | some p2 =>
      let p3 := { p2 with results := p2.results.filter (fun i => B.present i) }
      { res := match st.pres with
               | none => .empty
               | some _ => .page p3,
        calls := st.calls, too_many := false, group_ids := [],
        hitsFellThrough := false }

/-- SnubaOnlyQueryExecutor.query (lines 728-851): same window resolution and
short-circuits (no fast path), then the loop, finalize and hydration. -/
def soQuery (inp : QueryInput) (cfg : SearchConfig) (B : Backend) : QueryRun :=
  let w := resolvedWindow inp
  let retention := w.1
  let start := w.2.1
  let wend := w.2.2
  if start = retention ∧ wend = retention then
    { res := .empty, calls := [], too_many := false, group_ids := [],
      hitsFellThrough := false }
  else if start ≥ wend then
    { res := .empty, calls := [], too_many := false, group_ids := [],
      hitsFellThrough := false }
  else
    match so_sort_strategies inp.sort_by with
    | none =>
        { res := .err, calls := [], too_many := false, group_ids := [],
          hitsFellThrough := false }
    | some _sort_field => soRunLoop inp cfg B

/-- A release row of the relational store (Release model), as consulted by
SnubaOnlyQueryExecutor._transform_converted_filter for first_release
filters. -/
structure ModelRelease where
  version : String
  organization_id : Nat
  id : Int
  deriving DecidableEq

/-- Release.objects.filter(version=..., organization_id=...) (lines 705-708). -/
def releaseLookup (releases : List ModelRelease) (version : String)
    (org : Nat) : List ModelRelease :=
  releases.filter (fun r => r.version == version && r.organization_id == org)

/-- Lines 709-716: the first_release value transformation.  When the lookup
finds nothing the value becomes the sentinel -1; otherwise the id of the
first matching release. -/
def transformFirstReleaseValue (releases : List ModelRelease) (version : String)
    (org : Nat) : Int :=
  match releaseLookup releases version org with
  | [] => -1
  | r :: _ => r.id

/-- Well-formedness of the accumulator: the accumulated identifiers are
pairwise distinct and the seen set is exactly the set of accumulated
identifiers. -/
def accWF (a : AccState) : Prop :=
  (a.result_groups.map Prod.fst).Nodup ∧
    ∀ i, i ∈ a.result_group_ids ↔ i ∈ a.result_groups.map Prod.fst

/-- The candidate-forwarding discipline of one recorded call: a main-loop
call carries the sorted candidate list as its identifier restriction exactly
when candidates are in use, and a sampling call never carries one. -/
def callRestrictionOK (group_ids : List Nat) (c : SnubaCall) : Prop :=
  (c.get_sample = false → c.issue_restriction =
    (if group_ids = [] then none else some (sortedNat group_ids))) ∧
  (c.get_sample = true → c.issue_restriction = none)

/-- A concrete configuration used by the concrete runs below: candidate cap 5,
growth rate 2, max chunk size 10, sample size 96, fuel 3. -/
def fixCfg : SearchConfig := ⟨5, 2, 1, 10, 96, 3⟩

/-- A concrete backend: one candidate (id 5), every analytical call answers
([(5, 42)], 1), the paginator projects the accumulated ids, hydration keeps
everything. -/
def fixB1 : Backend :=
  ⟨fun _ => ([(5, 42)], 1), [5], fun rg _ => ⟨rg.map Prod.fst, false, false⟩,
   fun _ => true⟩

/-- A concrete backend whose relational queryset is empty. -/
def fixBEmptyQs : Backend :=
  ⟨fun _ => ([(5, 42)], 1), [], fun rg _ => ⟨rg.map Prod.fst, false, false⟩,
   fun _ => true⟩

/-- A concrete backend whose sampling call (the second analytical call)
returns no rows. -/
def fixBSampleEmpty : Backend :=
  ⟨fun n => if n = 0 then ([(5, 42)], 1) else ([], 0), [5],
   fun rg _ => ⟨rg.map Prod.fst, false, false⟩, fun _ => true⟩

/-- fixCfg with candidate cap 1, so a single-candidate queryset sits exactly
at the cap. -/
def fixCfg1 : SearchConfig := ⟨1, 2, 1, 10, 96, 3⟩

/-- A concrete query input with a valid resolved window: now = 10000000,
date_to = 9000000, so retention floor = 2224000 < start-candidate and the
window does not collapse; sort by date, limit 1, no cursor, hit counting
off. -/
def fixInpWin : QueryInput :=
  ⟨none, none, some 9000000, false, "date", 1, none, false, [], 10000000⟩

/-- fixInpWin with a (forward) cursor supplied and hit counting on, so the
hit estimator takes the sampling branch. -/
def fixInpCursor : QueryInput :=
  ⟨none, none, some 9000000, false, "date", 1, some ⟨0, false⟩, true, [], 10000000⟩

/-- A query input satisfying every fast-path condition of the claim (sort by
date, no cursor, no environments, only date-field filters) but carrying an
upper-bound date filter date < 9000000. -/
def fixInpDateLt : QueryInput :=
  ⟨none, none, none, false, "date", 1, none, false,
   [⟨"date", "<", 9000000, false⟩], 10000000⟩

/-- A query input on the pure relational fast path: sort by date, no cursor,
no environments, no filters, no date_to. -/
def fixInpFast : QueryInput :=
  ⟨none, none, none, false, "date", 1, none, false, [], 10000000⟩

theorem insertGroup_of_mem (acc : AccState) (p : Nat × Int)
    (h : p.1 ∈ acc.result_group_ids) : insertGroup acc p = acc := by
  simp [insertGroup, h]

theorem insertGroup_wf (acc : AccState) (p : Nat × Int) (h : accWF acc) :
    accWF (insertGroup acc p) := by
  unfold insertGroup
  by_cases hp : p.1 ∈ acc.result_group_ids
  · simpa [hp] using h
  · have hnot : p.1 ∉ acc.result_groups.map Prod.fst :=
      fun hm => hp ((h.2 p.1).2 hm)
    simp only [hp, if_neg, ite_false]
    constructor
    · simp only [List.map_append, List.map_cons, List.map_nil]
      rw [List.nodup_append]
      refine ⟨h.1, List.nodup_singleton _, ?_⟩
      intro a ha hb
      simp only [List.mem_singleton] at hb
      subst hb
      exact hnot ha
    · intro i
      simp only [List.mem_cons, List.map_append, List.mem_append,
        List.map_cons, List.map_nil, List.mem_singleton, h.2 i]
      tauto

theorem insertGroup_ext (acc : AccState) (p : Nat × Int) :
    ∃ t, (insertGroup acc p).result_groups = acc.result_groups ++ t := by
  unfold insertGroup
  by_cases hp : p.1 ∈ acc.result_group_ids
  · exact ⟨[], by simp [hp]⟩
  · exact ⟨[p], by simp [hp]⟩

theorem processChunk_wf (chunk : List (Nat × Int)) :
    ∀ acc : AccState, accWF acc → accWF (processChunk acc chunk) := by
  induction chunk with
  | nil => exact fun acc h => h
  | cons p t ih =>
      intro acc h
      have : processChunk acc (p :: t) = processChunk (insertGroup acc p) t := rfl
      rw [this]
      exact ih _ (insertGroup_wf _ _ h)

theorem processChunk_ext (chunk : List (Nat × Int)) :
    ∀ acc : AccState,
      ∃ t, (processChunk acc chunk).result_groups = acc.result_groups ++ t := by
  induction chunk with
  | nil => exact fun acc => ⟨[], by simp [processChunk]⟩
  | cons p tl ih =>
      intro acc
      have hstep : processChunk acc (p :: tl) = processChunk (insertGroup acc p) tl := rfl
      obtain ⟨t1, h1⟩ := ih (insertGroup acc p)
      obtain ⟨t0, h0⟩ := insertGroup_ext acc p
      refine ⟨t0 ++ t1, ?_⟩
      rw [hstep, h1, h0, List.append_assoc]

theorem runChunks_wf (chunks : List (List (Nat × Int))) : accWF (runChunks chunks) := by
  have main : ∀ (cs : List (List (Nat × Int))) (acc : AccState), accWF acc →
      accWF (cs.foldl processChunk acc) := by
    intro cs
    induction cs with
    | nil => exact fun acc h => h
    | cons c t ih =>
        intro acc h
        exact ih _ (processChunk_wf c acc h)
  exact main chunks _ ⟨by simp, by simp⟩

/-- C1: the chunked loops' result accumulator (lines 491-502 and 807-813) is
first-seen-wins: an identifier already in the seen set is discarded leaving
the whole accumulator state (stored scores and order) unchanged; processing a
later chunk only ever appends behind the existing entries; and starting from
the empty accumulator the final result holds each identifier exactly once,
the seen set being exactly the accumulated identifiers. -/
theorem c1_accumulator_first_seen_wins :
    (∀ (acc : AccState) (p : Nat × Int),
      p.1 ∈ acc.result_group_ids → insertGroup acc p = acc) ∧
    (∀ (acc : AccState) (chunk : List (Nat × Int)),
      ∃ t, (processChunk acc chunk).result_groups = acc.result_groups ++ t) ∧
    (∀ chunks : List (List (Nat × Int)),
      ((runChunks chunks).result_groups.map Prod.fst).Nodup ∧
      ∀ i, i ∈ (runChunks chunks).result_group_ids ↔
        i ∈ (runChunks chunks).result_groups.map Prod.fst) :=
  ⟨insertGroup_of_mem, fun acc chunk => processChunk_ext chunk acc,
   fun chunks => runChunks_wf chunks⟩

/-- Witness for C1 at concrete inputs: a duplicate of identifier 1 with a
drifted score (9 instead of the stored 5) is discarded wholesale, a chunk is
appended behind existing entries, and a two-chunk run with an overlap yields
pairwise distinct identifiers. -/
theorem c1_accumulator_first_seen_wins_witness :
    insertGroup ⟨[(1, 5)], [1]⟩ (1, 9) = ⟨[(1, 5)], [1]⟩ ∧
    (∃ t, (processChunk ⟨[(1, 5)], [1]⟩ [(1, 9), (2, 7)]).result_groups =
      [(1, 5)] ++ t) ∧
    ((runChunks [[(1, 5)], [(1, 9), (2, 7)]]).result_groups.map Prod.fst).Nodup :=
  ⟨c1_accumulator_first_seen_wins.1 ⟨[(1, 5)], [1]⟩ (1, 9) (by decide),
   c1_accumulator_first_seen_wins.2.1 ⟨[(1, 5)], [1]⟩ [(1, 9), (2, 7)],
   (c1_accumulator_first_seen_wins.2.2 [[(1, 5)], [(1, 9), (2, 7)]]).1⟩

theorem calculate_hits_sampling_eq_div (f c t : Nat) :
    calculate_hits_sampling f c t = if c = 0 then 0 else f * t / c := by
  unfold calculate_hits_sampling
  by_cases hc : c = 0
  · simp [hc]
  · simp only [hc, if_false]
    have harg : (f : ℚ) / (c : ℚ) * (t : ℚ) = ((f * t : ℕ) : ℚ) / ((c : ℕ) : ℚ) := by
      push_cast
      ring
    rw [harg, Nat.floor_div_eq_div]

/-- C4 counterexample: with filteredCount = 1, sampleCount = 2 and
totalRowsFromSampleQuery = 3, the code (int(), i.e. truncation) yields 1,
while the claimed round((1/2) * 3) is 2. -/
theorem c4_counterexample :
    calculate_hits_sampling 1 2 3 = 1 ∧ spec_hits_rounded 1 2 3 = 2 ∧ (1 : Nat) ≠ 2 := by
  refine ⟨?_, ?_, by decide⟩
  · rw [calculate_hits_sampling_eq_div]
    decide
  · unfold spec_hits_rounded
    have harg : ((1 : ℕ) : ℚ) / ((2 : ℕ) : ℚ) * ((3 : ℕ) : ℚ) + 1 / 2 = ((2 : ℕ) : ℚ) := by
      push_cast
      norm_num
    rw [if_neg (by decide), harg, Nat.floor_natCast]

/-- C4 (amended): in the sampling hit-estimation strategy the estimator
returns 0 when sampleCount = 0, and otherwise the floor (Python int()
truncation, not round) of (filteredCount / sampleCount) *
totalRowsFromSampleQuery, which equals (filteredCount *
totalRowsFromSampleQuery) / sampleCount in integer division. -/
theorem c4_amended (filtered_count snuba_count snuba_total : Nat) :
    calculate_hits_sampling filtered_count snuba_count snuba_total =
      if snuba_count = 0 then 0
      else filtered_count * snuba_total / snuba_count :=
  calculate_hits_sampling_eq_div filtered_count snuba_count snuba_total

theorem nextChunkLimit_le_max (gn gd M K c : Nat) :
    nextChunkLimit gn gd M K c ≤ max M K := by
  unfold nextChunkLimit
  exact max_le_max (min_le_right _ _) (le_refl K)

theorem le_nextChunkLimit (gn gd M K c : Nat) (hd : 0 < gd) (hg : gd ≤ gn)
    (hc : c ≤ M ∨ c ≤ K) : c ≤ nextChunkLimit gn gd M K c := by
  unfold nextChunkLimit
  rcases hc with h | h
  · refine le_max_of_le_left (le_min ?_ h)
    calc c = c * gd / gd := (Nat.mul_div_cancel _ hd).symm
    _ ≤ c * gn / gd := Nat.div_le_div_right (Nat.mul_le_mul_left _ hg)
  · exact le_max_of_le_right h

theorem nextChunkLimit_cases (gn gd M K c : Nat) :
    nextChunkLimit gn gd M K c ≤ M ∨ nextChunkLimit gn gd M K c ≤ K := by
  unfold nextChunkLimit
  rcases le_total (min ((c * gn) / gd) M) K with h | h
  · right
    rw [max_eq_right h]
  · left
    rw [max_eq_left h]
    exact min_le_right _ _

theorem chunkLimits_cases (gn gd M K limit n : Nat) :
    chunkLimits gn gd M K limit n ≤ M ∨ chunkLimits gn gd M K limit n ≤ K := by
  cases n with
  | zero => exact nextChunkLimit_cases gn gd M K limit
  | succ m => exact nextChunkLimit_cases gn gd M K (chunkLimits gn gd M K limit m)

/-- C5 counterexample: with growth rate 2, max_chunk_size 3 and 5 forwarded
candidates (a configuration with max_candidates > max_chunk_size), the very
first iteration's chunk limit is max(min(1 * 2, 3), 5) = 5, which exceeds
max_chunk_size = 3 — line 452 floors the chunk limit at len(group_ids) after
the min with max_chunk_size. -/
theorem c5_counterexample :
    chunkLimits 2 1 3 5 1 0 = 5 ∧ ¬ chunkLimits 2 1 3 5 1 0 ≤ 3 := by decide

/-- C5 (amended): provided the configured growth rate is at least 1, the
chunk limit is non-decreasing across the iterations of one query's loop, and
it never exceeds max(max_chunk_size, number of forwarded candidates) (with no
forwarded candidates this is the claimed max_chunk_size bound). -/
theorem c5_amended (gn gd M K limit : Nat) (hd : 0 < gd) (hg : gd ≤ gn) :
    (∀ n, chunkLimits gn gd M K limit n ≤ chunkLimits gn gd M K limit (n + 1)) ∧
    (∀ n, chunkLimits gn gd M K limit n ≤ max M K) := by
  constructor
  · intro n
    exact le_nextChunkLimit gn gd M K _ hd hg (chunkLimits_cases gn gd M K limit n)
  · intro n
    cases n with
    | zero => exact nextChunkLimit_le_max gn gd M K limit
    | succ m => exact nextChunkLimit_le_max gn gd M K (chunkLimits gn gd M K limit m)

/-- Witness for C5 (amended) at growth rate 3/2, max_chunk_size 10, no
candidates, initial limit 1: the first step does not shrink and stays within
the bound. -/
theorem c5_amended_witness :
    chunkLimits 3 2 10 0 1 0 ≤ chunkLimits 3 2 10 0 1 1 ∧
    chunkLimits 3 2 10 0 1 0 ≤ max 10 0 :=
  ⟨(c5_amended 3 2 10 0 1 (by decide) (by decide)).1 0,
   (c5_amended 3 2 10 0 1 (by decide) (by decide)).2 0⟩

theorem prevFix_results (r : Page) (cur : Option Cursor) :
    (prevFix r cur).results = r.results := by
  unfold prevFix
  cases cur with
  | none => rfl
  | some c =>
      by_cases h : c.is_prev = false ∨ 0 < r.results.length
      · simp [h]
      · simp [h]

theorem prevFix_next_has (r : Page) (cur : Option Cursor) :
    (prevFix r cur).next_has = r.next_has := by
  unfold prevFix
  cases cur with
  | none => rfl
  | some c =>
      by_cases h : c.is_prev = false ∨ 0 < r.results.length
      · simp [h]
      · simp [h]

theorem prevFix_prev_none (r : Page) : (prevFix r none).prev_has = r.prev_has := rfl

theorem prevFix_prev_forced (r : Page) (c : Cursor)
    (h : c.is_prev = false ∨ 0 < r.results.length) :
    (prevFix r (some c)).prev_has = true := by
  simp [prevFix, h]

theorem prevFix_prev_kept (r : Page) (c : Cursor) (h1 : c.is_prev = true)
    (h2 : r.results.length = 0) :
    (prevFix r (some c)).prev_has = r.prev_has := by
  have : ¬(c.is_prev = false ∨ 0 < r.results.length) := by
    rw [h1, h2]
    simp
  simp [prevFix, this]

theorem finalizePage_eq (p : Page) (limit : Nat) (mr : Bool)
    (cursor : Option Cursor) (q : Page)
    (hq : finalizePage p limit (some mr) cursor = some q) :
    q = prevFix (if p.results.length = limit ∧ mr = true then
      { p with next_has := true } else p) cursor := by
  unfold finalizePage at hq
  by_cases hlen : p.results.length = limit
  · rw [if_pos hlen] at hq
    cases mr
    · simp only [Option.some.injEq] at hq
      rw [if_neg (by intro h; exact absurd h.2 (by decide))]
      exact hq.symm
    · simp only [Option.some.injEq] at hq
      rw [if_pos ⟨hlen, rfl⟩]
      exact hq.symm
  · rw [if_neg hlen] at hq
    simp only [Option.some.injEq] at hq
    rw [if_neg (fun h => hlen h.1)]
    exact hq.symm

/-- C7 counterexample: the caller supplied a next cursor (is_prev = false),
the paginator produced an empty page with prev_has = false, yet the finalize
step (lines 550-554) forces prev_has to true — the claim allows a forced prev
flag only for a non-empty prev cursor, with the flags otherwise unchanged. -/
theorem c7_counterexample :
    finalizePage ⟨[], false, false⟩ 5 (some false) (some ⟨0, false⟩) =
      some ⟨[], false, true⟩ ∧
    (⟨0, false⟩ : Cursor).is_prev = false ∧
    (⟨[], false, true⟩ : Page).prev_has ≠ (⟨[], false, false⟩ : Page).prev_has := by
  refine ⟨?_, rfl, by decide⟩
  rfl

/-- C7 (amended): in the finalize step, the next cursor's has_results flag is
forced true exactly when the produced page has exactly limit results and
more_results was true; the prev cursor's has_results flag is forced true
whenever any cursor was supplied, unless it is an is_prev cursor and the
produced page is empty; otherwise the paginator's flags (and the page
contents) are unchanged. -/
theorem c7_amended (p : Page) (limit : Nat) (mr : Bool) (cursor : Option Cursor)
    (q : Page) (hq : finalizePage p limit (some mr) cursor = some q) :
    q.results = p.results ∧
    (p.results.length = limit ∧ mr = true → q.next_has = true) ∧
    (¬(p.results.length = limit ∧ mr = true) → q.next_has = p.next_has) ∧
    (cursor = none → q.prev_has = p.prev_has) ∧
    (∀ c, cursor = some c → c.is_prev = false ∨ 0 < p.results.length →
      q.prev_has = true) ∧
    (∀ c, cursor = some c → c.is_prev = true → p.results.length = 0 →
      q.prev_has = p.prev_has) := by
  have hq2 := finalizePage_eq p limit mr cursor q hq
  by_cases hc : p.results.length = limit ∧ mr = true
  · rw [if_pos hc] at hq2
    subst hq2
    refine ⟨by rw [prevFix_results], fun _ => by rw [prevFix_next_has],
      fun h => absurd hc h, ?_, ?_, ?_⟩
    · intro h
      subst h
      exact prevFix_prev_none _
    · intro c h hcond
      subst h
      exact prevFix_prev_forced _ c hcond
    · intro c h h1 h2
      subst h
      exact prevFix_prev_kept _ c h1 h2
  · rw [if_neg hc] at hq2
    subst hq2
    refine ⟨prevFix_results p cursor, fun h => absurd h hc,
      fun _ => prevFix_next_has p cursor, ?_, ?_, ?_⟩
    · intro h
      subst h
      exact prevFix_prev_none _
    · intro c h hcond
      subst h
      exact prevFix_prev_forced _ c hcond
    · intro c h h1 h2
      subst h
      exact prevFix_prev_kept _ c h1 h2

/-- Witness for C7 (amended): a full page (1 result, limit 1) with
more_results true gets its next flag forced. -/
theorem c7_amended_witness : (⟨[1], true, false⟩ : Page).next_has = true :=
  (c7_amended ⟨[1], false, false⟩ 1 true none ⟨[1], true, false⟩ rfl).2.1
    (by decide)

/-- C8 counterexample: with the caller having opted out (count_hits = false),
the SnubaOnly variant's calculate_hits still issues one analytical call and
returns its total (here 7), not the unknown value None — it never consults
count_hits (lines 853-882). -/
theorem c8_counterexample :
    (soCalculateHits ([], 7) false).1 = some 7 ∧
    (soCalculateHits ([], 7) false).2 = 1 ∧
    (some 7 : Option Nat) ≠ none := by
  refine ⟨rfl, rfl, by decide⟩

/-- C8 (amended): with count_hits false, the Postgres variant's
calculate_hits returns None and performs no additional analytical call
(lines 582-583); the Snuba-only variant instead ignores count_hits, always
performs one additional analytical call and returns the total it reports. -/
theorem c8_amended (qs_ids : List Nat) (sampleResp : List (Nat × Int) × Nat)
    (group_ids : List Nat) (snuba_groups : List (Nat × Int)) (too_many : Bool)
    (cursor : Option Cursor) (countResp : List (Nat × Int) × Nat) :
    pgCalculateHits qs_ids sampleResp group_ids snuba_groups too_many cursor false =
      (some none, false) ∧
    soCalculateHits countResp false = (some countResp.2, 1) :=
  ⟨rfl, rfl⟩

/-- C9: when the release-label-to-id lookup of a first_release filter finds
no matching release, _transform_converted_filter (lines 703-716) totally
rewrites the filter value to the sentinel -1 without raising, and, since
every real release id is a nonnegative database key, the sentinel matches no
release, so the predicate contributes zero matches. -/
theorem c9_first_release_sentinel (releases : List ModelRelease)
    (version : String) (org : Nat)
    (hids : ∀ r ∈ releases, 0 ≤ r.id)
    (hmiss : releaseLookup releases version org = []) :
    transformFirstReleaseValue releases version org = -1 ∧
    ∀ r ∈ releases, r.id ≠ transformFirstReleaseValue releases version org := by
  have ht : transformFirstReleaseValue releases version org = -1 := by
    unfold transformFirstReleaseValue
    rw [hmiss]
  refine ⟨ht, ?_⟩
  intro r hr
  rw [ht]
  intro hcontra
  have := hids r hr
  rw [hcontra] at this
  exact absurd this (by decide)

/-- Witness for C9: a store holding release "1.0" of organization 1 with id
3; looking up the unknown label "2.0" yields the sentinel and no release
matches it. -/
theorem c9_first_release_sentinel_witness :
    transformFirstReleaseValue [⟨"1.0", 1, 3⟩] "2.0" 1 = -1 ∧
    ∀ r ∈ [(⟨"1.0", 1, 3⟩ : ModelRelease)],
      r.id ≠ transformFirstReleaseValue [⟨"1.0", 1, 3⟩] "2.0" 1 :=
  c9_first_release_sentinel [⟨"1.0", 1, 3⟩] "2.0" 1 (by decide) (by decide)

theorem pgLoopBody_calls_len (inp : QueryInput) (cfg : SearchConfig) (B : Backend)
    (tm : Bool) (g : List Nat) (st : LoopState) :
    st.calls.length + 1 ≤ ((pgLoopBody inp cfg B tm g st).1).calls.length := by
  unfold pgLoopBody
  dsimp only
  repeat' split
  all_goals simp

theorem pgLoopIter_calls_len (inp : QueryInput) (cfg : SearchConfig) (B : Backend)
    (tm : Bool) (g : List Nat) :
    ∀ (fuel : Nat) (st : LoopState),
      st.calls.length ≤ (pgLoopIter inp cfg B tm g fuel st).calls.length := by
  intro fuel
  induction fuel with
  | zero => intro st; exact le_refl _
  | succ n ih =>
      intro st
      unfold pgLoopIter
      dsimp only
      split
      · exact le_trans (Nat.le_succ _) (pgLoopBody_calls_len inp cfg B tm g st)
      · exact le_trans (le_trans (Nat.le_succ _) (pgLoopBody_calls_len inp cfg B tm g st))
          (ih _)

theorem pgLoopIter_calls_ne_nil (inp : QueryInput) (cfg : SearchConfig) (B : Backend)
    (tm : Bool) (g : List Nat) (fuel : Nat) (st : LoopState) (hf : 1 ≤ fuel) :
    (pgLoopIter inp cfg B tm g fuel st).calls ≠ [] := by
  cases fuel with
  | zero => exact absurd hf (by decide)
  | succ n =>
      have h1 : st.calls.length + 1 ≤
          (pgLoopIter inp cfg B tm g (n + 1) st).calls.length := by
        unfold pgLoopIter
        dsimp only
        split
        · exact pgLoopBody_calls_len inp cfg B tm g st
        · exact le_trans (pgLoopBody_calls_len inp cfg B tm g st)
            (pgLoopIter_calls_len inp cfg B tm g n _)
      intro hnil
      rw [hnil] at h1
      simp at h1

theorem pgCalculateHits_fst_ne_none (qs_ids : List Nat)
    (sampleResp : List (Nat × Int) × Nat) (group_ids : List Nat)
    (snuba_groups : List (Nat × Int)) (too_many : Bool) (cursor : Option Cursor)
    (count_hits : Bool) (h : group_ids ≠ [] ∨ too_many = true) :
    (pgCalculateHits qs_ids sampleResp group_ids snuba_groups too_many cursor
      count_hits).1 ≠ none := by
  unfold pgCalculateHits
  by_cases h1 : count_hits = false
  · simp [h1]
  · rw [if_neg h1]
    by_cases h2 : too_many = true ∨ cursor.isSome
    · rw [if_pos h2]
      by_cases h3 : sampleResp.1.length = 0
      · simp [h3]
      · simp [h3]
    · rw [if_neg h2]
      have hg : group_ids ≠ [] := by
        rcases h with hg | htm
        · exact hg
        · exact absurd (Or.inl htm) h2
      simp [hg]

theorem pgLoopBody_hitsErr (inp : QueryInput) (cfg : SearchConfig) (B : Backend)
    (tm : Bool) (g : List Nat) (st : LoopState) (h : g ≠ [] ∨ tm = true) :
    ((pgLoopBody inp cfg B tm g st).1).hitsErr = st.hitsErr := by
  unfold pgLoopBody
  dsimp only
  split
  · rfl
  · split
    · rfl
    · split
      · rename_i heq
        exact absurd heq (pgCalculateHits_fst_ne_none _ _ _ _ _ _ _ h)
      · rfl

theorem pgLoopIter_hitsErr (inp : QueryInput) (cfg : SearchConfig) (B : Backend)
    (tm : Bool) (g : List Nat) (h : g ≠ [] ∨ tm = true) :
    ∀ (fuel : Nat) (st : LoopState),
      (pgLoopIter inp cfg B tm g fuel st).hitsErr = st.hitsErr := by
  intro fuel
  induction fuel with
  | zero => intro st; rfl
  | succ n ih =>
      intro st
      unfold pgLoopIter
      dsimp only
      split
      · exact pgLoopBody_hitsErr inp cfg B tm g st h
      · rw [ih _, pgLoopBody_hitsErr inp cfg B tm g st h]

theorem pgLoopBody_callsOK (inp : QueryInput) (cfg : SearchConfig) (B : Backend)
    (tm : Bool) (g : List Nat) (st : LoopState)
    (h : ∀ c ∈ st.calls, callRestrictionOK g c) :
    ∀ c ∈ ((pgLoopBody inp cfg B tm g st).1).calls, callRestrictionOK g c := by
  have hmain : ∀ (l : Option Nat) (o : Nat),
      callRestrictionOK g ⟨if g = [] then none else some (sortedNat g), l, o, false⟩ :=
    fun l o => ⟨fun _ => rfl, fun hb => Bool.noConfusion hb⟩
  have hmain2 : ∀ (l : Option Nat) (o : Nat), g ≠ [] →
      callRestrictionOK g ⟨some (sortedNat g), l, o, false⟩ :=
    fun l o hg => ⟨fun _ => (if_neg hg).symm, fun hb => Bool.noConfusion hb⟩
  have hmain3 : ∀ (l : Option Nat) (o : Nat), g = [] →
      callRestrictionOK g ⟨none, l, o, false⟩ :=
    fun l o hg => ⟨fun _ => (if_pos hg).symm, fun hb => Bool.noConfusion hb⟩
  have hsample : ∀ (l : Option Nat) (o : Nat),
      callRestrictionOK g ⟨none, l, o, true⟩ :=
    fun l o => ⟨fun hb => Bool.noConfusion hb, fun _ => rfl⟩
  unfold pgLoopBody
  dsimp only
  repeat' split
  all_goals intro c hc
  all_goals simp only [List.mem_append, List.mem_singleton] at hc
  all_goals
    first
    | exact h c hc
    | (rcases hc with (hc | rfl) | rfl
       · exact h c hc
       · first
         | exact hmain _ _
         | exact hmain2 _ _ (by assumption)
         | exact hmain3 _ _ (by simp_all)
       · exact hsample _ _)
    | (rcases hc with hc | rfl
       · exact h c hc
       · first
         | exact hmain _ _
         | exact hmain2 _ _ (by assumption)
         | exact hmain3 _ _ (by simp_all))

theorem pgLoopIter_callsOK (inp : QueryInput) (cfg : SearchConfig) (B : Backend)
    (tm : Bool) (g : List Nat) :
    ∀ (fuel : Nat) (st : LoopState),
      (∀ c ∈ st.calls, callRestrictionOK g c) →
      ∀ c ∈ (pgLoopIter inp cfg B tm g fuel st).calls, callRestrictionOK g c := by
  intro fuel
  induction fuel with
  | zero => intro st h; exact h
  | succ n ih =>
      intro st h
      unfold pgLoopIter
      dsimp only
      split
      · exact pgLoopBody_callsOK inp cfg B tm g st h
      · exact ih _ (pgLoopBody_callsOK inp cfg B tm g st h)

theorem soLoopBody_calls_len (inp : QueryInput) (cfg : SearchConfig) (B : Backend)
    (st : LoopState) :
    st.calls.length + 1 ≤ ((soLoopBody inp cfg B st).1).calls.length := by
  unfold soLoopBody
  dsimp only
  repeat' split
  all_goals simp

theorem soLoopIter_calls_len (inp : QueryInput) (cfg : SearchConfig) (B : Backend) :
    ∀ (fuel : Nat) (st : LoopState),
      st.calls.length ≤ (soLoopIter inp cfg B fuel st).calls.length := by
  intro fuel
  induction fuel with
  | zero => intro st; exact le_refl _
  | succ n ih =>
      intro st
      unfold soLoopIter
      dsimp only
      split
      · exact le_trans (Nat.le_succ _) (soLoopBody_calls_len inp cfg B st)
      · exact le_trans (le_trans (Nat.le_succ _) (soLoopBody_calls_len inp cfg B st))
          (ih _)

theorem soLoopIter_calls_ne_nil (inp : QueryInput) (cfg : SearchConfig) (B : Backend)
    (fuel : Nat) (st : LoopState) (hf : 1 ≤ fuel) :
    (soLoopIter inp cfg B fuel st).calls ≠ [] := by
  cases fuel with
  | zero => exact absurd hf (by decide)
  | succ n =>
      have h1 : st.calls.length + 1 ≤
          (soLoopIter inp cfg B (n + 1) st).calls.length := by
        unfold soLoopIter
        dsimp only
        split
        · exact soLoopBody_calls_len inp cfg B st
        · exact le_trans (soLoopBody_calls_len inp cfg B st)
            (soLoopIter_calls_len inp cfg B n _)
      intro hnil
      rw [hnil] at h1
      simp at h1

theorem pgRunLoop_hitsFellThrough (inp : QueryInput) (cfg : SearchConfig)
    (B : Backend) (tm : Bool) (g : List Nat) (h : g ≠ [] ∨ tm = true) :
    (pgRunLoop inp cfg B tm g).hitsFellThrough = false := by
  unfold pgRunLoop
  dsimp only
  rw [pgLoopIter_hitsErr inp cfg B tm g h]
  simp only [initLoopState, Bool.false_eq_true, if_false]
  split
  · rfl
  · rfl

theorem pgAfterWindow_hitsFellThrough (inp : QueryInput) (cfg : SearchConfig)
    (B : Backend) : (pgAfterWindow inp cfg B).hitsFellThrough = false := by
  unfold pgAfterWindow
  dsimp only
  split
  · rfl
  · rename_i hne
    split
    · rfl
    · apply pgRunLoop_hitsFellThrough
      by_cases hgt : (B.qs_ids.take (cfg.max_candidates + 1)).length > cfg.max_candidates
      · right
        simpa using hgt
      · left
        rw [if_neg hgt]
        exact hne

/-- C10: for every input, configuration and backend, the Postgres executor
never reaches calculate_hits' trailing return with the local hits unbound: at
every invocation of calculate_hits from the loop, group_ids is nonempty or
too_many_candidates is true (the empty-candidates case returned the empty
result before the loop), so the run never raises a NameError from that
return. -/
theorem c10_no_unbound_hits (inp : QueryInput) (cfg : SearchConfig) (B : Backend) :
    (pgQuery inp cfg B).hitsFellThrough = false := by
  unfold pgQuery
  dsimp only
  split
  · rfl
  · split
    · rfl
    · split
      · rfl
      · exact pgAfterWindow_hitsFellThrough inp cfg B

theorem resolvedWindow_start_ge (inp : QueryInput) :
    (resolvedWindow inp).1 ≤ (resolvedWindow inp).2.1 := by
  unfold resolvedWindow resolvedStart
  dsimp only
  exact le_max_of_le_left (le_max_right _ _)

theorem resolvedWindow_end_ge (inp : QueryInput) :
    (resolvedWindow inp).1 ≤ (resolvedWindow inp).2.2 := by
  unfold resolvedWindow
  dsimp only
  exact le_max_left _ _

theorem pgRunLoop_not_empty (inp : QueryInput) (cfg : SearchConfig) (B : Backend)
    (tm : Bool) (g : List Nat) (hfuel : 1 ≤ cfg.fuel) :
    ¬((pgRunLoop inp cfg B tm g).res = QResult.empty ∧
      (pgRunLoop inp cfg B tm g).calls = []) := by
  unfold pgRunLoop
  dsimp only
  have hcalls := pgLoopIter_calls_ne_nil inp cfg B tm g cfg.fuel
    (initLoopState inp.limit) hfuel
  split
  · intro hcon
    exact QResult.noConfusion hcon.1
  · split
    · intro hcon
      exact QResult.noConfusion hcon.1
    · dsimp only
      split
      · intro hcon
        exact hcalls hcon.2
      · intro hcon
        exact QResult.noConfusion hcon.1

theorem pgAfterWindow_empty_iff (inp : QueryInput) (cfg : SearchConfig) (B : Backend)
    (hfuel : 1 ≤ cfg.fuel) :
    (pgAfterWindow inp cfg B).res = QResult.empty ∧
      (pgAfterWindow inp cfg B).calls = [] ↔
    B.qs_ids.take (cfg.max_candidates + 1) = [] := by
  unfold pgAfterWindow
  dsimp only
  split
  · rename_i hnil
    simp [hnil]
  · rename_i hne
    apply iff_of_false _ hne
    split
    · intro hcon
      exact QResult.noConfusion hcon.1
    · exact pgRunLoop_not_empty inp cfg B _ _ hfuel

theorem soRunLoop_not_empty (inp : QueryInput) (cfg : SearchConfig) (B : Backend)
    (hfuel : 1 ≤ cfg.fuel) :
    ¬((soRunLoop inp cfg B).res = QResult.empty ∧ (soRunLoop inp cfg B).calls = []) := by
  unfold soRunLoop
  dsimp only
  have hcalls := soLoopIter_calls_ne_nil inp cfg B cfg.fuel
    (initLoopState inp.limit) hfuel
  split
  · intro hcon
    exact QResult.noConfusion hcon.1
  · dsimp only
    split
    · intro hcon
      exact hcalls hcon.2
    · intro hcon
      exact QResult.noConfusion hcon.1

theorem soQuery_proceed_not_empty (inp : QueryInput) (cfg : SearchConfig)
    (B : Backend) (hfuel : 1 ≤ cfg.fuel)
    (hA : ¬((resolvedWindow inp).2.1 = (resolvedWindow inp).1 ∧
      (resolvedWindow inp).2.2 = (resolvedWindow inp).1))
    (hB : ¬((resolvedWindow inp).2.1 ≥ (resolvedWindow inp).2.2)) :
    ¬((soQuery inp cfg B).res = QResult.empty ∧ (soQuery inp cfg B).calls = []) := by
  unfold soQuery
  dsimp only
  rw [if_neg hA, if_neg hB]
  split
  · intro hcon
    exact QResult.noConfusion hcon.1
  · exact soRunLoop_not_empty inp cfg B hfuel

/-- C2 counterexample: on fixInpWin the resolved window is (2224000, 2224000,
9000000) — neither short-circuit case (a) start = end = retention floor nor
(b) start >= end holds — yet with an empty relational queryset the Postgres
executor returns the canonical empty result with no analytical-store call
(lines 406-409), so the "exactly in the two short-circuit cases" part of the
claim is false. -/
theorem c2_counterexample :
    ((pgQuery fixInpWin fixCfg fixBEmptyQs).res = QResult.empty ∧
      (pgQuery fixInpWin fixCfg fixBEmptyQs).calls = []) ∧
    ¬((resolvedWindow fixInpWin).2.1 = (resolvedWindow fixInpWin).1 ∧
      (resolvedWindow fixInpWin).2.2 = (resolvedWindow fixInpWin).1) ∧
    ¬((resolvedWindow fixInpWin).2.1 ≥ (resolvedWindow fixInpWin).2.2) := by
  decide

/-- C2 (amended): the resolved window always satisfies start >= retention
floor and end >= retention floor, and start <= end whenever the query is not
short-circuited; for a query that does not take the relational fast path, run
with a positive wall-clock budget, the canonical empty result with no
analytical-store call is returned exactly in: (a) start and end both equal
the retention floor, (b) start >= end, or — in the Postgres variant only —
(c) the relational pre-filter returns zero candidate identifiers; the
Snuba-only variant short-circuits exactly in (a) and (b). -/
theorem c2_amended (inp : QueryInput) (cfg : SearchConfig) (B : Backend)
    (hfuel : 1 ≤ cfg.fuel)
    (hfp : ¬(resolvedEnd0 inp.date_to
      (get_search_filter inp.search_filters "date" "<") = none ∧ pgFastPathCond inp)) :
    (resolvedWindow inp).1 ≤ (resolvedWindow inp).2.1 ∧
    (resolvedWindow inp).1 ≤ (resolvedWindow inp).2.2 ∧
    (¬((resolvedWindow inp).2.1 ≥ (resolvedWindow inp).2.2) →
      (resolvedWindow inp).2.1 ≤ (resolvedWindow inp).2.2) ∧
    ((pgQuery inp cfg B).res = QResult.empty ∧ (pgQuery inp cfg B).calls = [] ↔
      ((resolvedWindow inp).2.1 = (resolvedWindow inp).1 ∧
        (resolvedWindow inp).2.2 = (resolvedWindow inp).1) ∨
      (resolvedWindow inp).2.1 ≥ (resolvedWindow inp).2.2 ∨
      B.qs_ids.take (cfg.max_candidates + 1) = []) ∧
    ((soQuery inp cfg B).res = QResult.empty ∧ (soQuery inp cfg B).calls = [] ↔
      ((resolvedWindow inp).2.1 = (resolvedWindow inp).1 ∧
        (resolvedWindow inp).2.2 = (resolvedWindow inp).1) ∨
      (resolvedWindow inp).2.1 ≥ (resolvedWindow inp).2.2) := by
  refine ⟨resolvedWindow_start_ge inp, resolvedWindow_end_ge inp,
    fun h => le_of_not_le h, ?_, ?_⟩
  · unfold pgQuery
    dsimp only
    rw [if_neg hfp]
    by_cases hA : (resolvedWindow inp).2.1 = (resolvedWindow inp).1 ∧
        (resolvedWindow inp).2.2 = (resolvedWindow inp).1
    · rw [if_pos hA]
      exact iff_of_true ⟨rfl, rfl⟩ (Or.inl hA)
    · rw [if_neg hA]
      by_cases hB : (resolvedWindow inp).2.1 ≥ (resolvedWindow inp).2.2
      · rw [if_pos hB]
        exact iff_of_true ⟨rfl, rfl⟩ (Or.inr (Or.inl hB))
      · rw [if_neg hB]
        rw [pgAfterWindow_empty_iff inp cfg B hfuel]
        constructor
        · exact fun h => Or.inr (Or.inr h)
        · intro h
          rcases h with h | h | h
          · exact absurd h hA
          · exact absurd h hB
          · exact h
  · by_cases hA : (resolvedWindow inp).2.1 = (resolvedWindow inp).1 ∧
        (resolvedWindow inp).2.2 = (resolvedWindow inp).1
    · refine iff_of_true ?_ (Or.inl hA)
      unfold soQuery
      dsimp only
      rw [if_pos hA]
      exact ⟨rfl, rfl⟩
    · by_cases hB : (resolvedWindow inp).2.1 ≥ (resolvedWindow inp).2.2
      · refine iff_of_true ?_ (Or.inr hB)
        unfold soQuery
        dsimp only
        rw [if_neg hA, if_pos hB]
        exact ⟨rfl, rfl⟩
      · refine iff_of_false (soQuery_proceed_not_empty inp cfg B hfuel hA hB) ?_
        rintro (h | h)
        · exact hA h
        · exact hB h

/-- Witness for C2 (amended) at fixInpWin with an empty queryset: the
amended biconditional's zero-candidates case yields the canonical empty
result with no analytical call. -/
theorem c2_amended_witness :
    (pgQuery fixInpWin fixCfg fixBEmptyQs).res = QResult.empty ∧
    (pgQuery fixInpWin fixCfg fixBEmptyQs).calls = [] :=
  ((c2_amended fixInpWin fixCfg fixBEmptyQs (by decide) (by decide)).2.2.2.1).mpr
    (Or.inr (Or.inr (by decide)))

theorem pgRunLoop_too_many (inp : QueryInput) (cfg : SearchConfig) (B : Backend)
    (tm : Bool) (g : List Nat) : (pgRunLoop inp cfg B tm g).too_many = tm := by
  unfold pgRunLoop
  dsimp only
  split
  · rfl
  · split
    · rfl
    · rfl

theorem pgRunLoop_group_ids (inp : QueryInput) (cfg : SearchConfig) (B : Backend)
    (tm : Bool) (g : List Nat) : (pgRunLoop inp cfg B tm g).group_ids = g := by
  unfold pgRunLoop
  dsimp only
  split
  · rfl
  · split
    · rfl
    · rfl

theorem pgRunLoop_callsOK (inp : QueryInput) (cfg : SearchConfig) (B : Backend)
    (tm : Bool) (g : List Nat) :
    ∀ c ∈ (pgRunLoop inp cfg B tm g).calls, callRestrictionOK g c := by
  have h := pgLoopIter_callsOK inp cfg B tm g cfg.fuel (initLoopState inp.limit)
    (by intro c hc; simp [initLoopState] at hc)
  unfold pgRunLoop
  dsimp only
  split
  · exact h
  · split
    · exact h
    · exact h

theorem callRestrictionOK_nil (c : SnubaCall) (h : callRestrictionOK [] c) :
    c.issue_restriction = none := by
  cases hg : c.get_sample
  · rw [h.1 hg]
    simp
  · exact h.2 hg

/-- C3 counterexample: with one candidate (id 5, kept: 1 <= max_candidates =
5), a supplied cursor and hit counting on, the run issues two analytical
calls: the main chunk call carries the identifier restriction [5], but the
hit-estimation sampling call carries none — so the candidates are not
forwarded to every analytical call, as the claim requires. -/
theorem c3_counterexample :
    fixBSampleEmpty.qs_ids.take (fixCfg.max_candidates + 1) = [5] ∧
    (pgQuery fixInpCursor fixCfg fixBSampleEmpty).too_many = false ∧
    (pgQuery fixInpCursor fixCfg fixBSampleEmpty).group_ids = [5] ∧
    (pgQuery fixInpCursor fixCfg fixBSampleEmpty).calls.map
      (fun c => c.issue_restriction) = [some [5], none] ∧
    ¬(∀ c ∈ (pgQuery fixInpCursor fixCfg fixBSampleEmpty).calls,
      c.issue_restriction = some (sortedNat [5])) := by
  decide

/-- C3 (amended): for a query reaching the candidate pre-filter (no fast
path, window not short-circuited): zero candidates terminate immediately
with the canonical empty result and no analytical call; exactly
max_candidates (nonzero) candidates are kept and forwarded, sorted, as the
identifier restriction of every main-loop analytical call — but the
hit-estimation sampling call, when issued, carries no identifier
restriction; max_candidates + 1 candidates set too_many_candidates, discard
the candidate list, and no call of the run carries an identifier
restriction. -/
theorem c3_amended (inp : QueryInput) (cfg : SearchConfig) (B : Backend)
    (hfp : ¬(resolvedEnd0 inp.date_to
      (get_search_filter inp.search_filters "date" "<") = none ∧ pgFastPathCond inp))
    (hA : ¬((resolvedWindow inp).2.1 = (resolvedWindow inp).1 ∧
      (resolvedWindow inp).2.2 = (resolvedWindow inp).1))
    (hB : ¬((resolvedWindow inp).2.1 ≥ (resolvedWindow inp).2.2)) :
    (B.qs_ids.take (cfg.max_candidates + 1) = [] →
      (pgQuery inp cfg B).res = QResult.empty ∧ (pgQuery inp cfg B).calls = []) ∧
    ((B.qs_ids.take (cfg.max_candidates + 1)).length = cfg.max_candidates →
      B.qs_ids.take (cfg.max_candidates + 1) ≠ [] →
      (pgQuery inp cfg B).too_many = false ∧
      (pgQuery inp cfg B).group_ids = B.qs_ids.take (cfg.max_candidates + 1) ∧
      ∀ c ∈ (pgQuery inp cfg B).calls,
        callRestrictionOK (B.qs_ids.take (cfg.max_candidates + 1)) c) ∧
    ((B.qs_ids.take (cfg.max_candidates + 1)).length = cfg.max_candidates + 1 →
      (pgQuery inp cfg B).too_many = true ∧
      (pgQuery inp cfg B).group_ids = [] ∧
      ∀ c ∈ (pgQuery inp cfg B).calls, c.issue_restriction = none) := by
  have hq : pgQuery inp cfg B = pgAfterWindow inp cfg B := by
    unfold pgQuery
    dsimp only
    rw [if_neg hfp, if_neg hA, if_neg hB]
  rw [hq]
  refine ⟨?_, ?_, ?_⟩
  · intro hnil
    unfold pgAfterWindow
    dsimp only
    rw [if_pos hnil]
    exact ⟨rfl, rfl⟩
  · intro hlen hne
    have hngt : ¬((B.qs_ids.take (cfg.max_candidates + 1)).length > cfg.max_candidates) := by
      omega
    unfold pgAfterWindow
    dsimp only
    rw [if_neg hne]
    split
    · refine ⟨decide_eq_false hngt, if_neg hngt, ?_⟩
      intro c hc
      simp at hc
    · rw [if_neg hngt]
      exact ⟨pgRunLoop_too_many inp cfg B _ _ |>.trans (decide_eq_false hngt),
        pgRunLoop_group_ids inp cfg B _ _, pgRunLoop_callsOK inp cfg B _ _⟩
  · intro hlen
    have hne : B.qs_ids.take (cfg.max_candidates + 1) ≠ [] := by
      intro h
      rw [h] at hlen
      simp at hlen
    have hgt : (B.qs_ids.take (cfg.max_candidates + 1)).length > cfg.max_candidates := by
      omega
    unfold pgAfterWindow
    dsimp only
    rw [if_neg hne]
    split
    · refine ⟨decide_eq_true hgt, if_pos hgt, ?_⟩
      intro c hc
      simp at hc
    · rw [if_pos hgt]
      refine ⟨(pgRunLoop_too_many inp cfg B _ _).trans (decide_eq_true hgt),
        pgRunLoop_group_ids inp cfg B _ _, ?_⟩
      intro c hc
      exact callRestrictionOK_nil c (pgRunLoop_callsOK inp cfg B _ [] c hc)

/-- Witness for C3 (amended): with candidate cap 1 and the one-candidate
backend, the pre-filter yields exactly max_candidates identifiers; they are
kept, too_many stays false, and every recorded call respects the forwarding
discipline. -/
theorem c3_amended_witness :
    (pgQuery fixInpWin fixCfg1 fixB1).too_many = false ∧
    (pgQuery fixInpWin fixCfg1 fixB1).group_ids =
      fixB1.qs_ids.take (fixCfg1.max_candidates + 1) ∧
    ∀ c ∈ (pgQuery fixInpWin fixCfg1 fixB1).calls,
      callRestrictionOK (fixB1.qs_ids.take (fixCfg1.max_candidates + 1)) c :=
  (c3_amended fixInpWin fixCfg1 fixB1 (by decide) (by decide) (by decide)).2.1
    (by decide) (by decide)

/-- C6 counterexample: fixInpDateLt satisfies every condition of the claim —
sort by date, no cursor, no environment filter, and its only search filter
targets the date field — yet because that filter is an upper bound
(date < 9000000) it sets the resolved end, defeating the `if not end` guard
(line 348): the query runs the federated loop, issuing an analytical call,
instead of the relational fast path. -/
theorem c6_counterexample :
    (∀ sf ∈ fixInpDateLt.search_filters,
      sf.name ∈ pg_issue_only_fields ∨ sf.name = "date") ∧
    fixInpDateLt.sort_by = "date" ∧
    fixInpDateLt.cursor = none ∧
    fixInpDateLt.environments = false ∧
    (pgQuery fixInpDateLt fixCfg fixB1).res ≠ QResult.fastPath ∧
    (pgQuery fixInpDateLt fixCfg fixB1).calls ≠ [] := by
  decide

/-- C6 (amended): with sort_by = "date", no cursor, no environment filter,
every search filter targeting only relational-only fields or the date field,
and additionally no upper date bound (no date_to parameter and no "<"/"<="
date filter, so the resolved end stays empty), the federated loop is
bypassed entirely: the result is the relational DateTimePaginator result
over the queryset ordered by descending last_seen, and no analytical-store
call is made. -/
theorem c6_amended (inp : QueryInput) (cfg : SearchConfig) (B : Backend)
    (hc : inp.cursor = none) (hs : inp.sort_by = "date")
    (he : inp.environments = false)
    (hf : ∀ sf ∈ inp.search_filters, sf.name ∈ pg_issue_only_fields ∨ sf.name = "date")
    (hdt : inp.date_to = none)
    (hlt : get_search_filter inp.search_filters "date" "<" = none) :
    (pgQuery inp cfg B).res = QResult.fastPath ∧ (pgQuery inp cfg B).calls = [] := by
  have hcond : resolvedEnd0 inp.date_to
      (get_search_filter inp.search_filters "date" "<") = none ∧ pgFastPathCond inp := by
    constructor
    · rw [hdt, hlt]
      rfl
    · refine ⟨hc, hs, he, ?_⟩
      rw [List.filter_eq_nil_iff]
      intro sf hsf
      rcases hf sf hsf with h | h
      · simp [h]
      · simp [h]
  unfold pgQuery
  dsimp only
  rw [if_pos hcond]
  exact ⟨rfl, rfl⟩

/-- Witness for C6 (amended) at fixInpFast: the fast path is taken with zero
analytical calls. -/
theorem c6_amended_witness :
    (pgQuery fixInpFast fixCfg fixB1).res = QResult.fastPath ∧
    (pgQuery fixInpFast fixCfg fixB1).calls = [] :=
  c6_amended fixInpFast fixCfg fixB1 (by decide) (by decide) (by decide)
    (by decide) (by decide) (by decide)
